import Mathlib

/-!
# SFML `SoundFileReaderMp3`: a shallow embedding

The embedded source is `src/SFML/Audio/SoundFileReaderMp3.cpp`.

* `std::uint64_t`, `std::size_t`, `unsigned int` values are natural numbers; every
  C++ conversion or wrapping operation is written out as a reduction modulo
  `2 ^ 64` or `2 ^ 32` (`std::size_t` is taken to be 64 bits wide).
* The minimp3 engine is an external library: its primitives and the fields of its
  decoder handle are the fields of the parameter `Mp3dec`.
* The caller-owned byte stream is a parameter as well (`InputStream`).
-/

/-! ## Machine integers -/

/-- Conversion of a signed value to `std::uint64_t` / `std::size_t`. -/
def toUInt64 (z : Int) : Nat := (z % 2 ^ 64).toNat

/-- Conversion of an `int` to `unsigned int`. -/
def toUInt32 (z : Int) : Nat := (z % 2 ^ 32).toNat

/-- Wrapping subtraction of two `std::uint64_t` values. -/
def subUInt64 (a b : Nat) : Nat := (a + 2 ^ 64 - b) % 2 ^ 64

/-- Wrapping addition of two `std::uint64_t` values. -/
def addUInt64 (a b : Nat) : Nat := (a + b) % 2 ^ 64

/-! ## External collaborators -/

/-- Modelled from the spec: the channel roles (`sf::SoundChannel`, declared in a
header that is not among the sources); a finite closed set of tags. -/
inductive SoundChannel where
  | Unspecified
  | Mono
  | FrontLeft
  | FrontRight
  | FrontCenter
  | SideLeft
  | SideRight
  deriving DecidableEq, Repr

/-- Modelled from the spec: the output record `StreamInfo`
(`sf::SoundFileReader::Info`, declared in a header that is not among the sources). -/
structure Info where
  sampleCount : Nat
  channelCount : Nat
  sampleRate : Nat
  channelMap : List SoundChannel
  deriving DecidableEq, Repr

/-- What one call of `InputStream::read` delivers: the returned count, the bytes it
stored at the start of the destination buffer, and the stream afterwards. -/
structure StreamRead (S : Type) where
  count : Int
  data : List Nat
  stream : S

/-- Modelled from the spec: the byte-stream interface (`sf::InputStream`, declared in
a header that is not among the sources): `read(buffer, maxBytes)` and
`seek(absoluteOffset)`. -/
structure InputStream (S : Type) where
  read : S → Int → StreamRead S
  seek : S → Int → Int × S

/-- What one call of `mp3dec_ex_read` delivers: the decoder afterwards, the samples it
stored in the destination buffer, and the returned count. -/
structure Mp3Read (D : Type) where
  decoder : D
  pcm : List Int
  count : Nat

/-- The minimp3 engine (`minimp3_ex.h`, an external library): the primitives the reader
calls and the decoder fields it looks at. `D` is the decoder handle `mp3dec_ex_t`,
`S` the stream bound through the callbacks. -/
structure Mp3dec (D S : Type) where
  MP3D_SEEK_TO_SAMPLE : Int
  mp3dec_ex_open_cb : D → S → Int → D
  mp3dec_ex_seek : D → Nat → D
  mp3dec_ex_read : D → Nat → Mp3Read D
  samples : D → Nat
  channels : D → Int
  hz : D → Int

/-- The engine contract used by the position claims: `mp3dec_ex_read` never returns
more samples than it was asked for. -/
def Mp3dec.ReadBounded {D S : Type} (E : Mp3dec D S) : Prop :=
  ∀ (d : D) (n : Nat), (E.mp3dec_ex_read d n).count ≤ n

/-! ## The reader -/

/-- The two context slots of `mp3dec_io_t` that `open` binds to the stream. -/
structure mp3dec_io_t (S : Type) where
  read_data : Option S
  seek_data : Option S

/-- The data members of `sf::priv::SoundFileReaderMp3`. -/
structure SoundFileReaderMp3 (D S : Type) where
  m_io : mp3dec_io_t S
  m_decoder : D
  m_numSamples : Nat
  m_position : Nat

/-- Byte `i` of a header buffer. -/
def headerByte (header : List Nat) (i : Nat) : Nat := header.getD i 0

/-- The anonymous-namespace helper `hasValidId3Tag`:
`memcmp(header, "ID3", 3) == 0 && !((header[5] & 15) || (header[6] & 0x80) || ...)`. -/
def hasValidId3Tag (header : List Nat) : Bool :=
  (headerByte header 0 == 0x49 && headerByte header 1 == 0x44 && headerByte header 2 == 0x33) &&
    !((headerByte header 5 &&& 15) != 0 || (headerByte header 6 &&& 0x80) != 0 ||
      (headerByte header 7 &&& 0x80) != 0 || (headerByte header 8 &&& 0x80) != 0 ||
      (headerByte header 9 &&& 0x80) != 0)

/-- The local array `std::uint8_t header[10]` after the stream stored `data` at its
start; `uninit` is the indeterminate content the array had before. -/
def storeHeader (uninit data : List Nat) : List Nat :=
  (List.range 10).map (fun i => data.getD i (uninit.getD i 0))

/-- `SoundFileReaderMp3::check`. The engine's `hdr_valid` is a parameter; the result is
the returned flag and the stream as the call left it. -/
def SoundFileReaderMp3.check {S : Type} (hdr_valid : List Nat → Int) (IS : InputStream S)
    (uninit : List Nat) (stream : S) : Bool × S :=
  let r := IS.read stream 10
  let header := storeHeader uninit r.data
  if toUInt64 r.count < 10 then (false, r.stream)
  else if hasValidId3Tag header then (true, r.stream)
  else if hdr_valid header != 0 then (true, r.stream)
  else (false, r.stream)

/-- What `open` leaves behind when it returns: the returned flag, the reader, the output
record and the text sent to `sf::err()`. -/
structure OpenResult (D S : Type) where
  ret : Bool
  reader : SoundFileReaderMp3 D S
  info : Info
  err : List String

/-- `SoundFileReaderMp3::open`. `ndebug` tells whether `assert` is compiled out; the
result is `none` when `assert(false)` aborts the program. -/
def SoundFileReaderMp3.open {D S : Type} (E : Mp3dec D S) (ndebug : Bool)
    (r : SoundFileReaderMp3 D S) (stream : S) (info : Info) : Option (OpenResult D S) :=
  -- Init IO callbacks
  let r₁ := { r with m_io := { read_data := some stream, seek_data := some stream } }
  -- Init mp3 decoder
  let r₂ := { r₁ with m_decoder := E.mp3dec_ex_open_cb r₁.m_decoder stream E.MP3D_SEEK_TO_SAMPLE }
  if E.samples r₂.m_decoder = 0 then
    some { ret := false, reader := r₂, info := info, err := [] }
  else
    -- Retrieve the music attributes
    let info₁ := { info with channelCount := toUInt32 (E.channels r₂.m_decoder),
                             sampleRate := toUInt32 (E.hz r₂.m_decoder),
                             sampleCount := E.samples r₂.m_decoder }
    let done (i : Info) (err : List String) : Option (OpenResult D S) :=
      some { ret := true, reader := { r₂ with m_numSamples := i.sampleCount }, info := i, err := err }
    -- MP3 only supports mono/stereo channels
    match info₁.channelCount with
    | 0 => done info₁ ["No channels in MP3 file"]
    | 1 => done { info₁ with channelMap := [SoundChannel.Mono] } []
    | 2 => done { info₁ with channelMap := [SoundChannel.SideLeft, SoundChannel.SideRight] } []
    | _ =>
      if ndebug then done info₁ ["MP3 files with more than 2 channels not supported"]
      else none

/-- `SoundFileReaderMp3::seek`. -/
def SoundFileReaderMp3.seek {D S : Type} (E : Mp3dec D S) (r : SoundFileReaderMp3 D S)
    (sampleOffset : Nat) : SoundFileReaderMp3 D S :=
  let r₁ := { r with m_position := min sampleOffset r.m_numSamples }
  { r₁ with m_decoder := E.mp3dec_ex_seek r₁.m_decoder r₁.m_position }

/-- What `read` leaves behind: the reader, the samples stored in the caller's buffer and
the returned count. -/
structure ReadResult (D S : Type) where
  reader : SoundFileReaderMp3 D S
  samples : List Int
  ret : Nat

/-- The count `read` passes to `mp3dec_ex_read`:
`static_cast<std::size_t>(std::min(maxCount, m_numSamples - m_position))`. -/
def SoundFileReaderMp3.readRequest {D S : Type} (r : SoundFileReaderMp3 D S)
    (maxCount : Nat) : Nat :=
  (min maxCount (subUInt64 r.m_numSamples r.m_position)) % 2 ^ 64

/-- `SoundFileReaderMp3::read`. -/
def SoundFileReaderMp3.read {D S : Type} (E : Mp3dec D S) (r : SoundFileReaderMp3 D S)
    (maxCount : Nat) : ReadResult D S :=
  let toRead := min maxCount (subUInt64 r.m_numSamples r.m_position)
  let got := E.mp3dec_ex_read r.m_decoder (toRead % 2 ^ 64)
  let toRead := got.count % 2 ^ 64
  { reader := { r with m_decoder := got.decoder, m_position := addUInt64 r.m_position toRead },
    samples := got.pcm,
    ret := toRead }

/-! ## Harness: call sequences, the tag test in the spec's words, concrete collaborators -/

/-- One call of the decoding interface: `seek(x)` or `read(n)`. -/
inductive Call where
  | seek (x : Nat)
  | read (n : Nat)

/-- The reader after one call. -/
def SoundFileReaderMp3.step {D S : Type} (E : Mp3dec D S) (r : SoundFileReaderMp3 D S) :
    Call → SoundFileReaderMp3 D S
  | Call.seek x => SoundFileReaderMp3.seek E r x
  | Call.read n => (SoundFileReaderMp3.read E r n).reader

/-- The reader after a finite sequence of calls, first call first. -/
def SoundFileReaderMp3.run {D S : Type} (E : Mp3dec D S) (r : SoundFileReaderMp3 D S)
    (calls : List Call) : SoundFileReaderMp3 D S :=
  calls.foldl (SoundFileReaderMp3.step E) r

/-- The well-formed tag of the spec, in its words: bytes 0-2 are the marker "ID3", the
low nibble of byte 5 is zero, and the high bit of each of bytes 6, 7, 8, 9 is zero. -/
def Id3TagWellFormed (b : List Nat) : Prop :=
  (b.getD 0 0 = 'I'.toNat ∧ b.getD 1 0 = 'D'.toNat ∧ b.getD 2 0 = '3'.toNat) ∧
    b.getD 5 0 % 16 = 0 ∧
    (b.getD 6 0).testBit 7 = false ∧ (b.getD 7 0).testBit 7 = false ∧
    (b.getD 8 0).testBit 7 = false ∧ (b.getD 9 0).testBit 7 = false

instance (b : List Nat) : Decidable (Id3TagWellFormed b) := by
  unfold Id3TagWellFormed; infer_instance

/-- A byte stream held in memory: its bytes and a cursor. -/
structure MemoryStream where
  bytes : List Nat
  offset : Nat
  deriving DecidableEq, Repr

/-- Modelled from the spec: a byte stream over an ordered sequence of bytes; `read`
delivers at most the bytes that remain, `seek` returns the new offset or a negative
value when the offset lies beyond the bytes. -/
def memoryInputStream : InputStream MemoryStream where
  read := fun s size =>
    let rest := s.bytes.drop s.offset
    let n := min size.toNat rest.length
    { count := (n : Int), data := rest.take n, stream := { s with offset := s.offset + n } }
  seek := fun s offset =>
    if 0 ≤ offset ∧ offset.toNat ≤ s.bytes.length then (offset, { s with offset := offset.toNat })
    else (-1, s)

/-- The decoder handle of `clipEngine`. -/
structure ClipDecoder where
  samples : Nat
  channels : Int
  hz : Int
  cursor : Nat
  deriving DecidableEq, Repr

/-- A stand-in engine for concrete evaluations: the bound "stream" already carries the
decoded fields, and reading delivers what remains up to the requested count. -/
def clipEngine : Mp3dec ClipDecoder ClipDecoder where
  MP3D_SEEK_TO_SAMPLE := 1
  mp3dec_ex_open_cb := fun _ s _ => { s with cursor := 0 }
  mp3dec_ex_seek := fun d n => { d with cursor := n }
  mp3dec_ex_read := fun d n =>
    let k := min n (d.samples - d.cursor)
    { decoder := { d with cursor := d.cursor + k }, pcm := List.replicate k 0, count := k }
  samples := fun d => d.samples
  channels := fun d => d.channels
  hz := fun d => d.hz

/-- A header validation that accepts a header when its first byte is `0xff`. -/
def syncByteValid (header : List Nat) : Int := if header.getD 0 0 = 0xff then 1 else 0

/-- A reader on which nothing was done yet: both counters are 0. -/
def newReader : SoundFileReaderMp3 ClipDecoder ClipDecoder :=
  { m_io := { read_data := none, seek_data := none },
    m_decoder := { samples := 0, channels := 0, hz := 0, cursor := 0 },
    m_numSamples := 0, m_position := 0 }

/-- A mono clip of 10 samples. -/
def tenClip : ClipDecoder := { samples := 10, channels := 1, hz := 44100, cursor := 0 }

/-- The reader after `open` on `tenClip` and `seek(5)`: 10 samples, position 5. -/
def usedReader : SoundFileReaderMp3 ClipDecoder ClipDecoder :=
  { m_io := { read_data := some tenClip, seek_data := some tenClip },
    m_decoder := { samples := 10, channels := 1, hz := 44100, cursor := 5 },
    m_numSamples := 10, m_position := 5 }

/-- A mono clip of 3 samples. -/
def monoClip : ClipDecoder := { samples := 3, channels := 1, hz := 44100, cursor := 0 }

/-- A stereo clip of 8 samples. -/
def stereoClip : ClipDecoder := { samples := 8, channels := 2, hz := 48000, cursor := 0 }

/-- A clip of 5 samples for which the engine reports no channel. -/
def noChannelClip : ClipDecoder := { samples := 5, channels := 0, hz := 44100, cursor := 0 }

/-- A clip for which the engine reports no sample. -/
def emptyClip : ClipDecoder := { samples := 0, channels := 1, hz := 44100, cursor := 0 }

/-- An output record as a caller constructs it. -/
def blankInfo : Info := { sampleCount := 0, channelCount := 0, sampleRate := 0, channelMap := [] }

/-- An output record that still holds the values of an earlier mono file. -/
def staleInfo : Info :=
  { sampleCount := 7, channelCount := 1, sampleRate := 8000, channelMap := [SoundChannel.Mono] }

/-- What `open` returns, its counters and its output record, or `none` after an abort. -/
def openSummary {D S : Type} (res : Option (OpenResult D S)) : Option (Bool × Nat × Nat × Info) :=
  res.map (fun o => (o.ret, o.reader.m_numSamples, o.reader.m_position, o.info))

/-! ## Lemmas -/

theorem and_0x80_eq_zero_iff (x : Nat) : x &&& 0x80 = 0 ↔ x.testBit 7 = false := by
  constructor
  · intro h
    have h7 : (x &&& 0x80).testBit 7 = false := by rw [h]; exact Nat.zero_testBit 7
    rw [Nat.testBit_and] at h7
    have h128 : Nat.testBit 0x80 7 = true := by decide
    rw [h128, Bool.and_true] at h7
    exact h7
  · intro h
    apply Nat.eq_of_testBit_eq
    intro i
    rw [Nat.testBit_and, Nat.zero_testBit]
    by_cases hi : i = 7
    · subst hi; rw [h, Bool.false_and]
    · have h128 : Nat.testBit 0x80 i = false := by
        have h2 : (0x80 : Nat) = 2 ^ 7 := by norm_num
        rw [h2]
        exact Nat.testBit_two_pow_of_ne (fun h7 => hi h7.symm)
      rw [h128, Bool.and_false]

theorem and_15_eq_mod (x : Nat) : x &&& 15 = x % 16 := by
  have h := Nat.and_pow_two_sub_one_eq_mod x 4
  norm_num at h
  exact h

theorem hasValidId3Tag_iff (header : List Nat) :
    hasValidId3Tag header = true ↔ Id3TagWellFormed header := by
  simp only [hasValidId3Tag, Id3TagWellFormed, headerByte, Bool.and_eq_true, beq_iff_eq,
    Bool.not_eq_true', Bool.or_eq_false_iff, bne_eq_false_iff_eq, and_0x80_eq_zero_iff,
    and_15_eq_mod]
  have hI : 'I'.toNat = 0x49 := by decide
  have hD : 'D'.toNat = 0x44 := by decide
  have h3 : '3'.toNat = 0x33 := by decide
  rw [hI, hD, h3]
  tauto

theorem storeHeader_of_length (uninit data : List Nat) (h : data.length = 10) :
    storeHeader uninit data = data := by
  apply List.ext_getElem
  · simp [storeHeader, h]
  · intro i h₁ h₂
    simp only [storeHeader, List.length_map, List.length_range] at h₁
    simp [storeHeader, List.getD_eq_getElem?_getD, List.getElem?_eq_getElem h₂]

/-- The reader `usedReader` is the one a new reader becomes by `open` on the 10-sample clip
followed by `seek(5)`. -/
theorem usedReader_reached :
    (SoundFileReaderMp3.open clipEngine false newReader tenClip blankInfo).map
      (fun o => (o.ret, SoundFileReaderMp3.seek clipEngine o.reader 5)) = some (true, usedReader) :=
  rfl

theorem clipEngine_readBounded : Mp3dec.ReadBounded clipEngine := by
  intro d n
  exact Nat.min_le_left _ _

theorem subUInt64_le (a b : Nat) (h : b ≤ a) : subUInt64 a b ≤ a - b := by
  unfold subUInt64
  have h₁ : a + 2 ^ 64 - b = (a - b) + 2 ^ 64 := by omega
  rw [h₁, Nat.add_mod_right]
  exact Nat.mod_le _ _

theorem subUInt64_eq (a b : Nat) (h : b ≤ a) (ha : a < 2 ^ 64) : subUInt64 a b = a - b := by
  unfold subUInt64
  have h₁ : a + 2 ^ 64 - b = (a - b) + 2 ^ 64 := by omega
  rw [h₁, Nat.add_mod_right]
  exact Nat.mod_eq_of_lt (by omega)

theorem subUInt64_self (a : Nat) : subUInt64 a a = 0 := by
  unfold subUInt64
  rw [Nat.add_sub_cancel_left]
  exact Nat.mod_self _

theorem toUInt64_of_nonneg_lt (z : Int) (h₀ : 0 ≤ z) (h₁ : z < 2 ^ 64) :
    toUInt64 z = z.toNat := by
  unfold toUInt64
  rw [Int.emod_eq_of_lt h₀ h₁]

/-! ## Format detection -/

/-- C3: for every stream whose read of 10 bytes delivers a count in 0..9, `check` returns
false, whatever bytes were delivered, whatever the buffer held before, and for every
header validation of the engine. -/
theorem check_short_stream_false {S : Type} (hdr_valid : List Nat → Int) (IS : InputStream S)
    (uninit : List Nat) (stream : S)
    (h₀ : 0 ≤ (IS.read stream 10).count) (h₁ : (IS.read stream 10).count < 10) :
    (SoundFileReaderMp3.check hdr_valid IS uninit stream).1 = false := by
  have hlt : toUInt64 (IS.read stream 10).count < 10 := by
    rw [toUInt64_of_nonneg_lt _ h₀ (by omega)]
    omega
  simp [SoundFileReaderMp3.check, hlt]

/-- Witness of C3 at a 9-byte stream that starts with a well-formed tag, with a header validation
that accepts everything. -/
theorem check_short_stream_false_witness :
    (SoundFileReaderMp3.check (fun _ => 1) memoryInputStream []
      { bytes := [0x49, 0x44, 0x33, 4, 0, 0, 0, 0, 0], offset := 0 }).1 = false :=
  check_short_stream_false (fun _ => 1) memoryInputStream []
    { bytes := [0x49, 0x44, 0x33, 4, 0, 0, 0, 0, 0], offset := 0 } (by decide) (by decide)

/-- C4: for every stream whose read of 10 bytes delivers 10 bytes that form a well-formed
tag (bytes 0-2 are 'I','D','3', byte 5 has a zero low nibble, bytes 6-9 have their high
bit clear), `check` returns true, for every header validation of the engine and
whatever the other bits and the rest of the stream are. -/
theorem check_wellformed_tag_true {S : Type} (hdr_valid : List Nat → Int) (IS : InputStream S)
    (uninit : List Nat) (stream : S)
    (hcount : (IS.read stream 10).count = 10) (hlen : (IS.read stream 10).data.length = 10)
    (htag : Id3TagWellFormed (IS.read stream 10).data) :
    (SoundFileReaderMp3.check hdr_valid IS uninit stream).1 = true := by
  have hge : ¬ toUInt64 (IS.read stream 10).count < 10 := by
    rw [hcount]; decide
  have hid : hasValidId3Tag (storeHeader uninit (IS.read stream 10).data) = true := by
    rw [storeHeader_of_length _ _ hlen]
    exact (hasValidId3Tag_iff _).mpr htag
  simp [SoundFileReaderMp3.check, hge, hid]

/-- Witness of C4 at a 12-byte stream with a tag and a header validation that rejects
everything. -/
theorem check_wellformed_tag_true_witness :
    (SoundFileReaderMp3.check (fun _ => 0) memoryInputStream []
      { bytes := [0x49, 0x44, 0x33, 4, 7, 0xe0, 0x7f, 0, 1, 2, 0xff, 0xff], offset := 0 }).1
      = true :=
  check_wellformed_tag_true (fun _ => 0) memoryInputStream []
    { bytes := [0x49, 0x44, 0x33, 4, 7, 0xe0, 0x7f, 0, 1, 2, 0xff, 0xff], offset := 0 }
    (by decide) (by decide) (by decide)

/-- C5: for every stream whose read of 10 bytes delivers 10 bytes that are not a
well-formed tag, `check` returns exactly the answer of the engine's header validation on
those 10 bytes: true when it accepts them (non-zero), false when it rejects them. -/
theorem check_no_tag_eq_hdr_valid {S : Type} (hdr_valid : List Nat → Int) (IS : InputStream S)
    (uninit : List Nat) (stream : S)
    (hcount : (IS.read stream 10).count = 10) (hlen : (IS.read stream 10).data.length = 10)
    (htag : ¬ Id3TagWellFormed (IS.read stream 10).data) :
    (SoundFileReaderMp3.check hdr_valid IS uninit stream).1
        = decide (hdr_valid (IS.read stream 10).data ≠ 0) ∧
      (hdr_valid (IS.read stream 10).data ≠ 0 →
        (SoundFileReaderMp3.check hdr_valid IS uninit stream).1 = true) ∧
      (hdr_valid (IS.read stream 10).data = 0 →
        (SoundFileReaderMp3.check hdr_valid IS uninit stream).1 = false) := by
  have hge : ¬ toUInt64 (IS.read stream 10).count < 10 := by
    rw [hcount]; decide
  have hid : hasValidId3Tag (storeHeader uninit (IS.read stream 10).data) = false := by
    rw [storeHeader_of_length _ _ hlen, Bool.eq_false_iff]
    exact fun h => htag ((hasValidId3Tag_iff _).mp h)
  have hst := storeHeader_of_length uninit _ hlen
  rw [hst] at hid
  have key : (SoundFileReaderMp3.check hdr_valid IS uninit stream).1
      = decide (hdr_valid (IS.read stream 10).data ≠ 0) := by
    by_cases hv : hdr_valid (IS.read stream 10).data = 0
    · simp [SoundFileReaderMp3.check, hge, hid, hst, hv]
    · simp [SoundFileReaderMp3.check, hge, hid, hst, hv]
  refine ⟨key, fun hv => ?_, fun hv => ?_⟩
  · rw [key]; exact decide_eq_true hv
  · rw [key]; simp [hv]

/-- Witness of C5 at a stream whose tag is malformed (byte 6 has its high bit set) and
whose header the validation rejects: `check` answers false, as the validation does. -/
theorem check_no_tag_eq_hdr_valid_witness :
    (SoundFileReaderMp3.check syncByteValid memoryInputStream []
      { bytes := [0x49, 0x44, 0x33, 4, 0, 0, 0x80, 0, 0, 0, 1], offset := 0 }).1 = false :=
  (check_no_tag_eq_hdr_valid syncByteValid memoryInputStream []
    { bytes := [0x49, 0x44, 0x33, 4, 0, 0, 0x80, 0, 0, 0, 1], offset := 0 }
    (by decide) (by decide) (by decide)).2.2 (by decide)

/-! ## `open` -/

/-- Every result of `open`, whatever the path: the decoder is the one the engine's open
primitive left, the position is the one the reader had, a true return carries the
engine-reported fields and a false return leaves the counters and the record alone. -/
theorem open_result_fields {D S : Type} (E : Mp3dec D S) (ndebug : Bool)
    (r : SoundFileReaderMp3 D S) (stream : S) (info : Info) (res : OpenResult D S)
    (hopen : SoundFileReaderMp3.open E ndebug r stream info = some res) :
    res.reader.m_position = r.m_position ∧
    res.reader.m_decoder = E.mp3dec_ex_open_cb r.m_decoder stream E.MP3D_SEEK_TO_SAMPLE ∧
    (res.ret = true ↔ E.samples res.reader.m_decoder ≠ 0) ∧
    (res.ret = true →
      res.reader.m_numSamples = E.samples res.reader.m_decoder ∧
      res.info.sampleCount = E.samples res.reader.m_decoder ∧
      res.info.channelCount = toUInt32 (E.channels res.reader.m_decoder) ∧
      res.info.sampleRate = toUInt32 (E.hz res.reader.m_decoder)) ∧
    (res.ret = false → res.reader.m_numSamples = r.m_numSamples ∧ res.info = info) := by
  unfold SoundFileReaderMp3.open at hopen
  simp only at hopen
  split at hopen
  · next hz =>
    cases hopen
    simp [hz]
  · next hnz =>
    split at hopen
    · cases hopen; simp [hnz]
    · cases hopen; simp [hnz]
    · cases hopen; simp [hnz]
    · split at hopen
      · cases hopen; simp [hnz]
      · cases hopen

/-- The result of `open` when the engine reports a non-zero sample count and a channel
count that converts to 0. -/
theorem open_of_no_channels {D S : Type} (E : Mp3dec D S) (ndebug : Bool)
    (r : SoundFileReaderMp3 D S) (stream : S) (info : Info)
    (hs : E.samples (E.mp3dec_ex_open_cb r.m_decoder stream E.MP3D_SEEK_TO_SAMPLE) ≠ 0)
    (hc : toUInt32 (E.channels (E.mp3dec_ex_open_cb r.m_decoder stream E.MP3D_SEEK_TO_SAMPLE)) = 0) :
    ∃ res, SoundFileReaderMp3.open E ndebug r stream info = some res ∧ res.ret = true ∧
      res.info.channelMap = info.channelMap ∧ res.err = ["No channels in MP3 file"] := by
  unfold SoundFileReaderMp3.open
  simp only [hs, hc, if_false]
  exact ⟨_, rfl, rfl, rfl, rfl⟩

/-- The result of `open` when the engine reports a non-zero sample count and a channel
count that converts to 1. -/
theorem open_of_one_channel {D S : Type} (E : Mp3dec D S) (ndebug : Bool)
    (r : SoundFileReaderMp3 D S) (stream : S) (info : Info)
    (hs : E.samples (E.mp3dec_ex_open_cb r.m_decoder stream E.MP3D_SEEK_TO_SAMPLE) ≠ 0)
    (hc : toUInt32 (E.channels (E.mp3dec_ex_open_cb r.m_decoder stream E.MP3D_SEEK_TO_SAMPLE)) = 1) :
    ∃ res, SoundFileReaderMp3.open E ndebug r stream info = some res ∧ res.ret = true ∧
      res.info.channelMap = [SoundChannel.Mono] ∧ res.info.channelCount = 1 := by
  unfold SoundFileReaderMp3.open
  simp only [hs, hc, if_false]
  exact ⟨_, rfl, rfl, rfl, rfl⟩

/-- The result of `open` when the engine reports a non-zero sample count and a channel
count that converts to 2. -/
theorem open_of_two_channels {D S : Type} (E : Mp3dec D S) (ndebug : Bool)
    (r : SoundFileReaderMp3 D S) (stream : S) (info : Info)
    (hs : E.samples (E.mp3dec_ex_open_cb r.m_decoder stream E.MP3D_SEEK_TO_SAMPLE) ≠ 0)
    (hc : toUInt32 (E.channels (E.mp3dec_ex_open_cb r.m_decoder stream E.MP3D_SEEK_TO_SAMPLE)) = 2) :
    ∃ res, SoundFileReaderMp3.open E ndebug r stream info = some res ∧ res.ret = true ∧
      res.info.channelMap = [SoundChannel.SideLeft, SoundChannel.SideRight] ∧
      res.info.channelCount = 2 := by
  unfold SoundFileReaderMp3.open
  simp only [hs, hc, if_false]
  exact ⟨_, rfl, rfl, rfl, rfl⟩

/-- The result of `open` when the engine reports zero samples. -/
theorem open_of_no_samples {D S : Type} (E : Mp3dec D S) (ndebug : Bool)
    (r : SoundFileReaderMp3 D S) (stream : S) (info : Info)
    (hs : E.samples (E.mp3dec_ex_open_cb r.m_decoder stream E.MP3D_SEEK_TO_SAMPLE) = 0) :
    ∃ res, SoundFileReaderMp3.open E ndebug r stream info = some res ∧ res.ret = false := by
  unfold SoundFileReaderMp3.open
  simp only [hs, if_true]
  exact ⟨_, rfl, rfl⟩

theorem toUInt32_of_nonneg_lt (z : Int) (h₀ : 0 ≤ z) (h₁ : z < 2 ^ 32) :
    ((toUInt32 z : Nat) : Int) = z := by
  unfold toUInt32
  rw [Int.emod_eq_of_lt h₀ h₁]
  exact Int.toNat_of_nonneg h₀

/-- C2 fails for a reader that was advanced before: `open` on `usedReader` (position 5) with
a 3-sample mono clip returns true, stores 3 as the total sample count and leaves the position
at 5. -/
theorem open_keeps_old_position_counterexample :
    openSummary (SoundFileReaderMp3.open clipEngine false usedReader monoClip blankInfo)
      = some (true, 3, 5, { sampleCount := 3, channelCount := 1, sampleRate := 44100,
                            channelMap := [SoundChannel.Mono] }) := by
  decide

/-- C2, amended: for every reader state, when `open` returns true the reader's total sample
count equals the engine-reported sample count and the decode position is the one the reader
had before the call; it is 0 when it was 0 before. -/
theorem open_sets_numSamples_keeps_position {D S : Type} (E : Mp3dec D S) (ndebug : Bool)
    (r : SoundFileReaderMp3 D S) (stream : S) (info : Info) (res : OpenResult D S)
    (hopen : SoundFileReaderMp3.open E ndebug r stream info = some res)
    (hret : res.ret = true) :
    res.reader.m_numSamples
        = E.samples (E.mp3dec_ex_open_cb r.m_decoder stream E.MP3D_SEEK_TO_SAMPLE) ∧
      res.reader.m_position = r.m_position ∧
      (r.m_position = 0 → res.reader.m_position = 0) := by
  obtain ⟨hpos, hdec, -, htrue, -⟩ := open_result_fields E ndebug r stream info res hopen
  refine ⟨?_, hpos, fun h => hpos.trans h⟩
  rw [← hdec]
  exact (htrue hret).1

/-- Witness of the amended C2: a new reader opened on the 3-sample mono clip. -/
theorem open_sets_numSamples_keeps_position_witness :
    ∃ res, SoundFileReaderMp3.open clipEngine false newReader monoClip blankInfo = some res ∧
      res.ret = true ∧ res.reader.m_numSamples = 3 ∧ res.reader.m_position = 0 := by
  obtain ⟨res, hopen, hret, -⟩ :=
    open_of_one_channel clipEngine false newReader monoClip blankInfo (by decide) (by decide)
  have h := open_sets_numSamples_keeps_position clipEngine false newReader monoClip blankInfo
    res hopen hret
  exact ⟨res, hopen, hret, h.1, h.2.2 rfl⟩

/-- C8: for every successful `open` and every prior content of the output record: when the
engine reports 1 channel the channel map is exactly `[Mono]`, when it reports 2 channels it
is exactly `[SideLeft, SideRight]`, in both cases its length is the channel count, and the
sample rate and sample count are the engine-reported values (the rate converted to
`unsigned int`, which is the reported number itself whenever that is not negative). -/
theorem open_channelMap_mono_stereo {D S : Type} (E : Mp3dec D S) (ndebug : Bool)
    (r : SoundFileReaderMp3 D S) (stream : S) (info : Info) (res : OpenResult D S)
    (hopen : SoundFileReaderMp3.open E ndebug r stream info = some res)
    (hret : res.ret = true) :
    (E.channels res.reader.m_decoder = 1 → res.info.channelMap = [SoundChannel.Mono]) ∧
    (E.channels res.reader.m_decoder = 2 →
      res.info.channelMap = [SoundChannel.SideLeft, SoundChannel.SideRight]) ∧
    (E.channels res.reader.m_decoder = 1 ∨ E.channels res.reader.m_decoder = 2 →
      res.info.channelMap.length = res.info.channelCount) ∧
    res.info.sampleRate = toUInt32 (E.hz res.reader.m_decoder) ∧
    (0 ≤ E.hz res.reader.m_decoder → E.hz res.reader.m_decoder < 2 ^ 32 →
      (res.info.sampleRate : Int) = E.hz res.reader.m_decoder) ∧
    res.info.sampleCount = E.samples res.reader.m_decoder ∧
    res.reader.m_decoder = E.mp3dec_ex_open_cb r.m_decoder stream E.MP3D_SEEK_TO_SAMPLE := by
  obtain ⟨-, hdec, hiff, htrue, -⟩ := open_result_fields E ndebug r stream info res hopen
  obtain ⟨-, hcount, -, hrate⟩ := htrue hret
  have hs := hiff.mp hret
  rw [hdec] at hs
  have one : E.channels res.reader.m_decoder = 1 →
      res.info.channelMap = [SoundChannel.Mono] ∧ res.info.channelCount = 1 := by
    intro h1
    rw [hdec] at h1
    obtain ⟨res', hopen', -, hmap, hcc⟩ :=
      open_of_one_channel E ndebug r stream info hs (by rw [h1]; rfl)
    rw [hopen] at hopen'
    cases hopen'
    exact ⟨hmap, hcc⟩
  have two : E.channels res.reader.m_decoder = 2 →
      res.info.channelMap = [SoundChannel.SideLeft, SoundChannel.SideRight] ∧
        res.info.channelCount = 2 := by
    intro h2
    rw [hdec] at h2
    obtain ⟨res', hopen', -, hmap, hcc⟩ :=
      open_of_two_channels E ndebug r stream info hs (by rw [h2]; rfl)
    rw [hopen] at hopen'
    cases hopen'
    exact ⟨hmap, hcc⟩
  refine ⟨fun h => (one h).1, fun h => (two h).1, ?_, hrate, ?_, hcount, hdec⟩
  · rintro (h | h)
    · rw [(one h).1, (one h).2]; rfl
    · rw [(two h).1, (two h).2]; rfl
  · intro h₀ h₁
    rw [hrate]
    exact toUInt32_of_nonneg_lt _ h₀ h₁

/-- Witness of C8: the 8-sample stereo clip opened into a record that still holds the
values of an earlier mono file. -/
theorem open_channelMap_mono_stereo_witness :
    ∃ res, SoundFileReaderMp3.open clipEngine false newReader stereoClip staleInfo = some res ∧
      res.ret = true ∧
      res.info.channelMap = [SoundChannel.SideLeft, SoundChannel.SideRight] ∧
      res.info.channelMap.length = res.info.channelCount ∧
      res.info.sampleRate = 48000 ∧ res.info.sampleCount = 8 := by
  obtain ⟨res, hopen, hret, -⟩ :=
    open_of_two_channels clipEngine false newReader stereoClip staleInfo (by decide) (by decide)
  have h := open_channelMap_mono_stereo clipEngine false newReader stereoClip staleInfo
    res hopen hret
  obtain ⟨-, h2, hlen, hrate, -, hcount, hdec⟩ := h
  have hch : clipEngine.channels res.reader.m_decoder = 2 := by rw [hdec]; rfl
  refine ⟨res, hopen, hret, h2 hch, hlen (Or.inr hch), ?_, ?_⟩
  · rw [hrate, hdec]; rfl
  · rw [hcount, hdec]; rfl

/-- C9 fails when the record passed in already holds a channel map: `open` on the clip
without channels returns true and the map is still `[Mono]`. -/
theorem open_no_channels_keeps_map_counterexample :
    openSummary (SoundFileReaderMp3.open clipEngine false newReader noChannelClip staleInfo)
      = some (true, 5, 0, { sampleCount := 5, channelCount := 0, sampleRate := 44100,
                            channelMap := [SoundChannel.Mono] }) := by
  decide

/-- C9, amended: for every `open` in which the engine reports a non-zero sample count and
the channel count is 0, `open` returns true and the channel map of the output record is
the one the record held before the call; it is empty when it was empty before. -/
theorem open_no_channels_map_unchanged {D S : Type} (E : Mp3dec D S) (ndebug : Bool)
    (r : SoundFileReaderMp3 D S) (stream : S) (info : Info)
    (hs : E.samples (E.mp3dec_ex_open_cb r.m_decoder stream E.MP3D_SEEK_TO_SAMPLE) ≠ 0)
    (hc : toUInt32 (E.channels (E.mp3dec_ex_open_cb r.m_decoder stream E.MP3D_SEEK_TO_SAMPLE))
      = 0) :
    ∃ res, SoundFileReaderMp3.open E ndebug r stream info = some res ∧ res.ret = true ∧
      res.info.channelCount = 0 ∧
      res.info.channelMap = info.channelMap ∧
      (info.channelMap = [] → res.info.channelMap = []) := by
  obtain ⟨res, hopen, hret, hmap, -⟩ := open_of_no_channels E ndebug r stream info hs hc
  obtain ⟨-, hdec, -, htrue, -⟩ := open_result_fields E ndebug r stream info res hopen
  refine ⟨res, hopen, hret, ?_, hmap, fun h => hmap.trans h⟩
  rw [(htrue hret).2.2.1, hdec]
  exact hc

/-- Witness of the amended C9: the clip without channels opened into a blank record. -/
theorem open_no_channels_map_unchanged_witness :
    ∃ res, SoundFileReaderMp3.open clipEngine false newReader noChannelClip blankInfo
        = some res ∧ res.ret = true ∧ res.info.channelCount = 0 ∧
      res.info.channelMap = [] := by
  obtain ⟨res, hopen, hret, hcount, -, hempty⟩ :=
    open_no_channels_map_unchanged clipEngine false newReader noChannelClip blankInfo
      (by decide) (by decide)
  exact ⟨res, hopen, hret, hcount, hempty rfl⟩

/-- C10: for every engine result whose channel count is at most 2, `open` returns, and it
returns false exactly when the engine reports zero total samples; with zero channels and
a non-zero sample count it returns true; when it returns false the stored total sample
count and the position are the ones the reader had before. -/
theorem open_false_iff_no_samples {D S : Type} (E : Mp3dec D S) (ndebug : Bool)
    (r : SoundFileReaderMp3 D S) (stream : S) (info : Info)
    (hc : toUInt32 (E.channels (E.mp3dec_ex_open_cb r.m_decoder stream E.MP3D_SEEK_TO_SAMPLE))
      ≤ 2) :
    ∃ res, SoundFileReaderMp3.open E ndebug r stream info = some res ∧
      (res.ret = false ↔
        E.samples (E.mp3dec_ex_open_cb r.m_decoder stream E.MP3D_SEEK_TO_SAMPLE) = 0) ∧
      (toUInt32 (E.channels (E.mp3dec_ex_open_cb r.m_decoder stream E.MP3D_SEEK_TO_SAMPLE)) = 0 →
        E.samples (E.mp3dec_ex_open_cb r.m_decoder stream E.MP3D_SEEK_TO_SAMPLE) ≠ 0 →
        res.ret = true) ∧
      (res.ret = false →
        res.reader.m_numSamples = r.m_numSamples ∧ res.reader.m_position = r.m_position) := by
  have hex : ∃ res, SoundFileReaderMp3.open E ndebug r stream info = some res := by
    by_cases hs : E.samples (E.mp3dec_ex_open_cb r.m_decoder stream E.MP3D_SEEK_TO_SAMPLE) = 0
    · obtain ⟨res, h, -⟩ := open_of_no_samples E ndebug r stream info hs
      exact ⟨res, h⟩
    · have h012 : toUInt32 (E.channels
          (E.mp3dec_ex_open_cb r.m_decoder stream E.MP3D_SEEK_TO_SAMPLE)) = 0 ∨
          toUInt32 (E.channels
            (E.mp3dec_ex_open_cb r.m_decoder stream E.MP3D_SEEK_TO_SAMPLE)) = 1 ∨
          toUInt32 (E.channels
            (E.mp3dec_ex_open_cb r.m_decoder stream E.MP3D_SEEK_TO_SAMPLE)) = 2 := by omega
      rcases h012 with h | h | h
      · obtain ⟨res, h, -⟩ := open_of_no_channels E ndebug r stream info hs h
        exact ⟨res, h⟩
      · obtain ⟨res, h, -⟩ := open_of_one_channel E ndebug r stream info hs h
        exact ⟨res, h⟩
      · obtain ⟨res, h, -⟩ := open_of_two_channels E ndebug r stream info hs h
        exact ⟨res, h⟩
  obtain ⟨res, hopen⟩ := hex
  obtain ⟨hpos, hdec, hiff, -, hfalse⟩ := open_result_fields E ndebug r stream info res hopen
  rw [hdec] at hiff
  refine ⟨res, hopen, ?_, fun _ hs => hiff.mpr hs, fun h => ⟨(hfalse h).1, hpos⟩⟩
  constructor
  · intro hf
    by_contra hs
    rw [hiff.mpr hs] at hf
    cases hf
  · intro hs
    cases hret : res.ret
    · rfl
    · exact absurd hs (hiff.mp hret)

/-- Witness of C10: the advanced reader opened on the clip without samples; `open` returns
false and the counters stay at 10 and 5. -/
theorem open_false_iff_no_samples_witness :
    ∃ res, SoundFileReaderMp3.open clipEngine false usedReader emptyClip blankInfo = some res ∧
      res.ret = false ∧ res.reader.m_numSamples = 10 ∧ res.reader.m_position = 5 := by
  obtain ⟨res, hopen, hiff, -, hkeep⟩ :=
    open_false_iff_no_samples clipEngine false usedReader emptyClip blankInfo (by decide)
  have hret : res.ret = false := hiff.mpr rfl
  exact ⟨res, hopen, hret, (hkeep hret).1, (hkeep hret).2⟩

/-! ## `seek` and `read` -/

/-- The count `read` hands to the engine stays within what is left of the stream. -/
theorem readRequest_le {D S : Type} (r : SoundFileReaderMp3 D S) (n : Nat)
    (h : r.m_position ≤ r.m_numSamples) :
    SoundFileReaderMp3.readRequest r n ≤ n ∧
      SoundFileReaderMp3.readRequest r n ≤ r.m_numSamples - r.m_position := by
  unfold SoundFileReaderMp3.readRequest
  have h₁ := subUInt64_le r.m_numSamples r.m_position h
  have h₂ := Nat.mod_le (min n (subUInt64 r.m_numSamples r.m_position)) (2 ^ 64)
  have h₃ := Nat.min_le_left n (subUInt64 r.m_numSamples r.m_position)
  have h₄ := Nat.min_le_right n (subUInt64 r.m_numSamples r.m_position)
  omega

/-- The engine call inside `read`: the decoder is the one `mp3dec_ex_read` leaves when
asked for `readRequest` samples, and the returned count is the engine's, as a
`std::uint64_t`. -/
theorem read_engine_call {D S : Type} (E : Mp3dec D S) (r : SoundFileReaderMp3 D S) (n : Nat) :
    (SoundFileReaderMp3.read E r n).reader.m_decoder
        = (E.mp3dec_ex_read r.m_decoder (SoundFileReaderMp3.readRequest r n)).decoder ∧
      (SoundFileReaderMp3.read E r n).ret
        = (E.mp3dec_ex_read r.m_decoder (SoundFileReaderMp3.readRequest r n)).count % 2 ^ 64 ∧
      (SoundFileReaderMp3.read E r n).reader.m_position
        = addUInt64 r.m_position (SoundFileReaderMp3.read E r n).ret ∧
      (SoundFileReaderMp3.read E r n).reader.m_numSamples = r.m_numSamples :=
  ⟨rfl, rfl, rfl, rfl⟩

/-- With a bounded engine and a position within the stream, `read` returns the engine's
count unchanged, adds it to the position without wrapping, and stays within the stream. -/
theorem read_within {D S : Type} (E : Mp3dec D S) (hE : E.ReadBounded)
    (r : SoundFileReaderMp3 D S) (n : Nat) (h : r.m_position ≤ r.m_numSamples) :
    (SoundFileReaderMp3.read E r n).ret
        ≤ (E.mp3dec_ex_read r.m_decoder (SoundFileReaderMp3.readRequest r n)).count ∧
      (SoundFileReaderMp3.read E r n).ret ≤ SoundFileReaderMp3.readRequest r n ∧
      (SoundFileReaderMp3.read E r n).reader.m_position
        ≤ r.m_position + (SoundFileReaderMp3.read E r n).ret ∧
      (SoundFileReaderMp3.read E r n).reader.m_position ≤ r.m_numSamples := by
  obtain ⟨-, hret, hpos, -⟩ := read_engine_call E r n
  have hb := hE r.m_decoder (SoundFileReaderMp3.readRequest r n)
  have hreq := (readRequest_le r n h).2
  have hmod := Nat.mod_le
    (E.mp3dec_ex_read r.m_decoder (SoundFileReaderMp3.readRequest r n)).count (2 ^ 64)
  have hadd : addUInt64 r.m_position (SoundFileReaderMp3.read E r n).ret
      ≤ r.m_position + (SoundFileReaderMp3.read E r n).ret := Nat.mod_le _ _
  rw [hpos]
  rw [← hret] at hmod
  omega

/-- One call keeps the total sample count and keeps the position within it. -/
theorem step_keeps_position_bound {D S : Type} (E : Mp3dec D S) (hE : E.ReadBounded)
    (r : SoundFileReaderMp3 D S) (c : Call) (h : r.m_position ≤ r.m_numSamples) :
    (SoundFileReaderMp3.step E r c).m_numSamples = r.m_numSamples ∧
      (SoundFileReaderMp3.step E r c).m_position ≤ r.m_numSamples := by
  cases c with
  | seek x => exact ⟨rfl, Nat.min_le_right x r.m_numSamples⟩
  | read n => exact ⟨rfl, (read_within E hE r n h).2.2.2⟩

/-- A finite sequence of calls keeps the total sample count and keeps the position
within it. -/
theorem run_keeps_position_bound {D S : Type} (E : Mp3dec D S) (hE : E.ReadBounded)
    (calls : List Call) (r : SoundFileReaderMp3 D S) (h : r.m_position ≤ r.m_numSamples) :
    (SoundFileReaderMp3.run E r calls).m_numSamples = r.m_numSamples ∧
      (SoundFileReaderMp3.run E r calls).m_position ≤ r.m_numSamples := by
  induction calls generalizing r with
  | nil => exact ⟨rfl, h⟩
  | cons c rest ih =>
    obtain ⟨hT, hp⟩ := step_keeps_position_bound E hE r c h
    have hstep : (SoundFileReaderMp3.step E r c).m_position
        ≤ (SoundFileReaderMp3.step E r c).m_numSamples := by rw [hT]; exact hp
    obtain ⟨hT', hp'⟩ := ih (SoundFileReaderMp3.step E r c) hstep
    rw [hT] at hT' hp'
    exact ⟨hT', hp'⟩

/-- C1 fails after a second `open`: a new reader opened on the 10-sample clip and moved to
position 5 is opened again on the 3-sample clip; `open` returns true and leaves position 5
with 3 total samples, and a following `read(4)` moves the position to 8, although the
engine never returns more than it is asked for. -/
theorem position_bound_after_reopen_counterexample :
    Mp3dec.ReadBounded clipEngine ∧
    (SoundFileReaderMp3.open clipEngine false newReader tenClip blankInfo).map
      (fun o => (o.ret, SoundFileReaderMp3.seek clipEngine o.reader 5)) = some (true, usedReader) ∧
    (SoundFileReaderMp3.open clipEngine false usedReader monoClip blankInfo).map
      (fun o => (o.ret,
        (SoundFileReaderMp3.run clipEngine o.reader []).m_position,
        (SoundFileReaderMp3.run clipEngine o.reader []).m_numSamples,
        (SoundFileReaderMp3.run clipEngine o.reader [Call.read 4]).m_position,
        (SoundFileReaderMp3.run clipEngine o.reader [Call.read 4]).m_numSamples))
      = some (true, 5, 3, 8, 3) :=
  ⟨fun _ _ => Nat.min_le_left _ _, rfl, by decide⟩

/-- C1, amended: starting from the state left by a successful `open` on a reader whose
position before the call does not exceed the sample count the engine reports (a reader
at position 0 in particular), after any finite sequence of `seek(x)` and `read(n)` calls
the position is at most the total sample count, which is still the engine-reported one,
provided the engine's read primitive never returns more samples than it was asked for. -/
theorem position_bound_after_open {D S : Type} (E : Mp3dec D S) (hE : E.ReadBounded)
    (ndebug : Bool) (r : SoundFileReaderMp3 D S) (stream : S) (info : Info)
    (res : OpenResult D S)
    (hopen : SoundFileReaderMp3.open E ndebug r stream info = some res)
    (hret : res.ret = true)
    (hpos : r.m_position
      ≤ E.samples (E.mp3dec_ex_open_cb r.m_decoder stream E.MP3D_SEEK_TO_SAMPLE))
    (calls : List Call) :
    0 ≤ (SoundFileReaderMp3.run E res.reader calls).m_position ∧
      (SoundFileReaderMp3.run E res.reader calls).m_position
        ≤ (SoundFileReaderMp3.run E res.reader calls).m_numSamples ∧
      (SoundFileReaderMp3.run E res.reader calls).m_numSamples
        = E.samples (E.mp3dec_ex_open_cb r.m_decoder stream E.MP3D_SEEK_TO_SAMPLE) ∧
      (SoundFileReaderMp3.run E res.reader calls).m_numSamples = res.info.sampleCount := by
  obtain ⟨hp, hdec, -, htrue, -⟩ := open_result_fields E ndebug r stream info res hopen
  obtain ⟨hnum, hcount, -, -⟩ := htrue hret
  rw [hdec] at hnum hcount
  have hstart : res.reader.m_position ≤ res.reader.m_numSamples := by
    rw [hp, hnum]; exact hpos
  obtain ⟨hT, hbound⟩ := run_keeps_position_bound E hE calls res.reader hstart
  refine ⟨Nat.zero_le _, ?_, ?_, ?_⟩
  · rw [hT]; exact hbound
  · rw [hT, hnum]
  · rw [hT, hnum, hcount]

/-- Witness of the amended C1: a new reader opened on the 10-sample clip, then `seek(7)`,
`read(100)`, `seek(2)`, `read(3)`. -/
theorem position_bound_after_open_witness :
    ∃ res, SoundFileReaderMp3.open clipEngine false newReader tenClip blankInfo = some res ∧
      res.ret = true ∧
      (SoundFileReaderMp3.run clipEngine res.reader
          [Call.seek 7, Call.read 100, Call.seek 2, Call.read 3]).m_position
        ≤ (SoundFileReaderMp3.run clipEngine res.reader
          [Call.seek 7, Call.read 100, Call.seek 2, Call.read 3]).m_numSamples ∧
      (SoundFileReaderMp3.run clipEngine res.reader
          [Call.seek 7, Call.read 100, Call.seek 2, Call.read 3]).m_numSamples = 10 := by
  obtain ⟨res, hopen, hret, -⟩ :=
    open_of_one_channel clipEngine false newReader tenClip blankInfo (by decide) (by decide)
  have h := position_bound_after_open clipEngine clipEngine_readBounded false newReader tenClip
    blankInfo res hopen hret (by decide) [Call.seek 7, Call.read 100, Call.seek 2, Call.read 3]
  exact ⟨res, hopen, hret, h.2.1, h.2.2.1⟩

/-- C6: for every target `x` and every reader with total sample count `T`, `seek(x)` sets
the position to `min(x, T)` and hands that same value to the engine's seek primitive;
for every `x ≥ T` it leaves the same reader as `seek(T)` with the same engine call, and
the `read(n)` that follows asks the engine for 0 samples and, the engine returning no
more than asked, returns 0. -/
theorem seek_clamps_to_end {D S : Type} (E : Mp3dec D S) (r : SoundFileReaderMp3 D S)
    (x n : Nat) :
    (SoundFileReaderMp3.seek E r x).m_position = min x r.m_numSamples ∧
    (SoundFileReaderMp3.seek E r x).m_decoder
      = E.mp3dec_ex_seek r.m_decoder (min x r.m_numSamples) ∧
    (SoundFileReaderMp3.seek E r x).m_numSamples = r.m_numSamples ∧
    (r.m_numSamples ≤ x →
      SoundFileReaderMp3.seek E r x = SoundFileReaderMp3.seek E r r.m_numSamples ∧
      (SoundFileReaderMp3.seek E r x).m_position = r.m_numSamples ∧
      (SoundFileReaderMp3.seek E r x).m_decoder = E.mp3dec_ex_seek r.m_decoder r.m_numSamples ∧
      SoundFileReaderMp3.readRequest (SoundFileReaderMp3.seek E r x) n = 0 ∧
      (SoundFileReaderMp3.read E (SoundFileReaderMp3.seek E r x) n).reader.m_decoder
        = (E.mp3dec_ex_read (SoundFileReaderMp3.seek E r x).m_decoder 0).decoder ∧
      (E.ReadBounded →
        (SoundFileReaderMp3.read E (SoundFileReaderMp3.seek E r x) n).ret = 0)) := by
  refine ⟨rfl, rfl, rfl, fun hx => ?_⟩
  have hmin : min x r.m_numSamples = r.m_numSamples := Nat.min_eq_right hx
  have hseek : SoundFileReaderMp3.seek E r x = SoundFileReaderMp3.seek E r r.m_numSamples := by
    simp only [SoundFileReaderMp3.seek, hmin, Nat.min_self]
  have hreq : SoundFileReaderMp3.readRequest (SoundFileReaderMp3.seek E r x) n = 0 := by
    simp only [SoundFileReaderMp3.readRequest, SoundFileReaderMp3.seek, hmin, subUInt64_self,
      Nat.min_zero, Nat.zero_mod]
  have hcall := read_engine_call E (SoundFileReaderMp3.seek E r x) n
  rw [hreq] at hcall
  obtain ⟨hdec, hret, -, -⟩ := hcall
  refine ⟨hseek, ?_, ?_, hreq, hdec, fun hE => ?_⟩
  · show min x r.m_numSamples = r.m_numSamples
    exact hmin
  · show E.mp3dec_ex_seek r.m_decoder (min x r.m_numSamples) = _
    rw [hmin]
  · have h0 : (E.mp3dec_ex_read (SoundFileReaderMp3.seek E r x).m_decoder 0).count = 0 :=
      Nat.le_zero.mp (hE _ 0)
    rw [hret, h0, Nat.zero_mod]

/-- Witness of C6 on the reader with 10 samples: `seek(1010)` is `seek(10)`, and the
`read(4)` that follows asks for 0 samples and returns 0. -/
theorem seek_clamps_to_end_witness :
    SoundFileReaderMp3.seek clipEngine usedReader 1010
        = SoundFileReaderMp3.seek clipEngine usedReader 10 ∧
      (SoundFileReaderMp3.seek clipEngine usedReader 1010).m_position = 10 ∧
      SoundFileReaderMp3.readRequest (SoundFileReaderMp3.seek clipEngine usedReader 1010) 4 = 0 ∧
      (SoundFileReaderMp3.read clipEngine
        (SoundFileReaderMp3.seek clipEngine usedReader 1010) 4).ret = 0 :=
  have h := (seek_clamps_to_end clipEngine usedReader 1010 4).2.2.2 (by decide)
  ⟨h.1, h.2.1, h.2.2.2.1, h.2.2.2.2.2 clipEngine_readBounded⟩

/-- C7: for every `x` and `n`, on a reader whose total sample count `T` is a
`std::uint64_t` value and an engine that returns no more than asked, `seek(x)` followed
by `read(n)` asks the engine for exactly `min(n, T - min(x, T))` samples, returns the
engine's count, advances the position by exactly that count, and so returns at most
`min(n, T - min(x, T))`. -/
theorem seek_then_read_count {D S : Type} (E : Mp3dec D S) (hE : E.ReadBounded)
    (r : SoundFileReaderMp3 D S) (hT : r.m_numSamples < 2 ^ 64) (x n : Nat) :
    SoundFileReaderMp3.readRequest (SoundFileReaderMp3.seek E r x) n
      = min n (r.m_numSamples - min x r.m_numSamples) ∧
    (SoundFileReaderMp3.read E (SoundFileReaderMp3.seek E r x) n).reader.m_decoder
      = (E.mp3dec_ex_read (E.mp3dec_ex_seek r.m_decoder (min x r.m_numSamples))
          (min n (r.m_numSamples - min x r.m_numSamples))).decoder ∧
    (SoundFileReaderMp3.read E (SoundFileReaderMp3.seek E r x) n).ret
      = (E.mp3dec_ex_read (E.mp3dec_ex_seek r.m_decoder (min x r.m_numSamples))
          (min n (r.m_numSamples - min x r.m_numSamples))).count ∧
    (SoundFileReaderMp3.read E (SoundFileReaderMp3.seek E r x) n).reader.m_position
      = min x r.m_numSamples + (SoundFileReaderMp3.read E (SoundFileReaderMp3.seek E r x) n).ret ∧
    (SoundFileReaderMp3.read E (SoundFileReaderMp3.seek E r x) n).ret
      ≤ min n (r.m_numSamples - min x r.m_numSamples) := by
  have hle : min x r.m_numSamples ≤ r.m_numSamples := Nat.min_le_right _ _
  have hsub : subUInt64 r.m_numSamples (min x r.m_numSamples)
      = r.m_numSamples - min x r.m_numSamples := subUInt64_eq _ _ hle hT
  have hk : min n (r.m_numSamples - min x r.m_numSamples) < 2 ^ 64 := by
    have := Nat.min_le_right n (r.m_numSamples - min x r.m_numSamples)
    omega
  have hreq : SoundFileReaderMp3.readRequest (SoundFileReaderMp3.seek E r x) n
      = min n (r.m_numSamples - min x r.m_numSamples) := by
    show (min n (subUInt64 r.m_numSamples (min x r.m_numSamples))) % 2 ^ 64 = _
    rw [hsub]
    exact Nat.mod_eq_of_lt hk
  obtain ⟨hdec, hret, hpos, -⟩ := read_engine_call E (SoundFileReaderMp3.seek E r x) n
  rw [hreq] at hdec hret
  have hb := hE (SoundFileReaderMp3.seek E r x).m_decoder
    (min n (r.m_numSamples - min x r.m_numSamples))
  have hmin := Nat.min_le_right n (r.m_numSamples - min x r.m_numSamples)
  have hret' : (SoundFileReaderMp3.read E (SoundFileReaderMp3.seek E r x) n).ret
      = (E.mp3dec_ex_read (SoundFileReaderMp3.seek E r x).m_decoder
          (min n (r.m_numSamples - min x r.m_numSamples))).count := by
    rw [hret]
    exact Nat.mod_eq_of_lt (by omega)
  refine ⟨hreq, hdec, hret', ?_, ?_⟩
  · rw [hpos]
    show (min x r.m_numSamples
      + (SoundFileReaderMp3.read E (SoundFileReaderMp3.seek E r x) n).ret) % 2 ^ 64 = _
    apply Nat.mod_eq_of_lt
    rw [hret']
    omega
  · rw [hret']
    exact hb

/-- Witness of C7 on the reader with 10 samples: `seek(7)` then `read(100)` asks the engine
for 3 samples, returns 3 and ends at position 10. -/
theorem seek_then_read_count_witness :
    SoundFileReaderMp3.readRequest (SoundFileReaderMp3.seek clipEngine usedReader 7) 100 = 3 ∧
      (SoundFileReaderMp3.read clipEngine
        (SoundFileReaderMp3.seek clipEngine usedReader 7) 100).ret = 3 ∧
      (SoundFileReaderMp3.read clipEngine
        (SoundFileReaderMp3.seek clipEngine usedReader 7) 100).reader.m_position = 10 :=
  have h := seek_then_read_count clipEngine clipEngine_readBounded usedReader (by decide) 7 100
  ⟨h.1, h.2.2.1, h.2.2.2.1⟩
